import Mathlib

/-!
Verification of the webhook inspection server (`src/server.js`).

The embedding models, faithfully to the source:
* JSON-like values (`Js`) as they appear in request bodies and the config file;
* the config store (`configs.json`, a JSON object mapping names to rule
  arrays) as an association list of its own keys, with property reads and
  assignments modelling the `Object.prototype` inheritance of the parsed
  object (`readProp`, `setProp`), and the CRUD handlers
  (GET/POST/DELETE `/api/configs...`) as pure functions on it;
* the in-memory webhook log (`webhooks`), the SSE client list
  (`sseClients`) and the three stateful endpoints touching them
  (`POST /api/webhook/receive`, `GET /api/events`, connection close)
  as a step function on a small state machine, run over traces of
  operations; the values written to each SSE client are collected as
  an explicit delivery list;
* the relay endpoint (`POST /api/webhook/send`) as a function
  parameterized by the outcome of the outbound `fetch` call and by the
  `JSON.parse` partial function.
-/

namespace WebhookApp

/-- JSON-like values. `undefined` is represented by `Option.none` at use
sites (a missing object field), not by a `Js` constructor, matching how the
handlers destructure `req.body`. -/
inductive Js where
  | null : Js
  | bool : Bool → Js
  | num : Int → Js
  | str : String → Js
  | arr : List Js → Js
  | obj : List (String × Js) → Js

/-- JavaScript truthiness of a `Js` value (`!v` in the source is
`Js.falsy v`). `NaN` does not arise in this model; arrays and objects are
always truthy in JavaScript. -/
def Js.falsy : Js → Bool
  | .null => true
  | .bool b => !b
  | .num n => n == 0
  | .str s => s == ""
  | .arr _ => false
  | .obj _ => false

/-- Models `Array.isArray` from the source. -/
def Js.isArr : Js → Bool
  | .arr _ => true
  | _ => false

/-- Truthiness of a possibly-missing string field (`!name` on a field that
is either absent, hence `undefined` and falsy, or a string, falsy iff
empty). -/
def optStrFalsy : Option String → Bool
  | none => true
  | some s => s == ""

/-- The whitespace class stripped by JavaScript `String.prototype.trim`
(ECMA-262 WhiteSpace and LineTerminator): tab, line feed, vertical tab,
form feed, carriage return, space, no-break space, Ogham space mark, the
en-quad .. hair-space block U+2000..U+200A, line separator, paragraph
separator, narrow no-break space, medium mathematical space, ideographic
space, and zero-width no-break space. -/
def isJsSpace (c : Char) : Bool :=
  c == '\t' || c == '\n' || c == '\u000B' || c == '\u000C' || c == '\r' ||
  c == ' ' || c == '\u00A0' || c == '\u1680' ||
  (0x2000 <= c.toNat && c.toNat <= 0x200A) ||
  c == '\u2028' || c == '\u2029' || c == '\u202F' || c == '\u205F' ||
  c == '\u3000' || c == '\uFEFF'

/-- JavaScript `String.prototype.trim`: strip leading and trailing
whitespace. -/
def jsTrim (s : String) : String :=
  ⟨((s.data.dropWhile isJsSpace).reverse.dropWhile isJsSpace).reverse⟩

/-- Truthiness of a possibly-missing `Js` field. -/
def optJsFalsy : Option Js → Bool
  | none => true
  | some j => j.falsy

/-- Models `Array.isArray` on a possibly-missing field (`Array.isArray(undefined)`
is `false`). -/
def optJsIsArr : Option Js → Bool
  | none => false
  | some j => j.isArr

/-- First-match lookup of an OWN key in an association list (the parsed
JSON object's own keys are unique).  This is only a building block: the
full semantics of reading `configs[name]`, prototype chain included, is
`readProp` below. -/
def lookupKey : List (String × α) → String → Option α
  | [], _ => none
  | (k, v) :: rest, k' => if k = k' then some v else lookupKey rest k'

/-- Own-key create-or-update in an association list: replace the value if
the key is present, otherwise add the key at the end.  The full semantics
of the assignment `configs[k] = v` is `setProp` below. -/
def setKey : List (String × α) → String → α → List (String × α)
  | [], k, v => [(k, v)]
  | (k1, v1) :: rest, k, v =>
    if k1 = k then (k, v) :: rest else (k1, v1) :: setKey rest k v

/-- Property deletion `delete configs[k]`: removes the own key when there
is one; `delete` never touches inherited properties, so this is the full
semantics. -/
def removeKey : List (String × α) → String → List (String × α)
  | [], _ => []
  | (k1, v1) :: rest, k =>
    if k1 = k then removeKey rest k else (k1, v1) :: removeKey rest k

/-- The persisted config mapping: the own keys of the object parsed from
`configs.json`, name → rule array.  Values written through the API are
always arrays, so they are modelled directly as `List Js`.  Reading and
writing a property of this object is NOT plain map access: the parsed
object inherits from `Object.prototype`, see `readProp` and `setProp`. -/
abbrev ConfigMap := List (String × List Js)

/-- The own property names of `Object.prototype` (ECMA-262), inherited by
every object produced by `JSON.parse`.  A read of any of these names on the
config document is truthy even when the document has no such own key: all
of them are functions, except `__proto__`, whose inherited getter returns
the prototype object itself. -/
def protoKeys : List String :=
  ["constructor", "hasOwnProperty", "isPrototypeOf", "propertyIsEnumerable",
   "toLocaleString", "toString", "valueOf", "__defineGetter__",
   "__defineSetter__", "__lookupGetter__", "__lookupSetter__", "__proto__"]

/-- What `configs[name]` evaluates to: an own key of the parsed document
(a rule array), an inherited `Object.prototype` member (truthy, but not a
rule array), or `undefined`. -/
inductive PropRead where
  | own (rules : List Js)
  | inherited
  | absent

/-- Reading `configs[name]` on the object parsed from `configs.json`: an
own key of the document wins; otherwise the name may still hit one of
`Object.prototype`'s own properties, all truthy; only otherwise is the
read `undefined`, hence falsy.  So `!configs[name]` in the source is true
iff this read is `absent`. -/
def readProp (store : ConfigMap) (name : String) : PropRead :=
  match lookupKey store name with
  | some rs => PropRead.own rs
  | none => if protoKeys.contains name then PropRead.inherited else PropRead.absent

/-- Assignment `configs[k] = rules` on the object parsed from
`configs.json`.  For every name except `__proto__` this creates or
updates an own key (the `Object.prototype` members other than `__proto__`
are writable data properties, so assignment shadows them).  Assigning
`__proto__` when the document has no own `__proto__` key invokes the
inherited prototype setter instead and stores nothing; an own `__proto__`
key (which `JSON.parse` defines when the file itself contains one) is
updated in place. -/
def setProp (m : ConfigMap) (k : String) (v : List Js) : ConfigMap :=
  if k == "__proto__" && (lookupKey m k).isNone then m else setKey m k v

/-- Response of `POST /api/configs`. -/
inductive SaveResult where
  | ok (name : String)
  | badRequest (error : String)

/-- HTTP status code attached to a `SaveResult`. -/
def SaveResult.httpStatus : SaveResult → Nat
  | .ok _ => 200
  | .badRequest _ => 400

/-- Response of `GET /api/configs/:name`.  `okInherited` is the 200
response produced when `configs[name]` hit an inherited `Object.prototype`
member: the handler answers `{ok:true, name, rules:<that member>}`, whose
`rules` is not the saved rule array (functions are even dropped by the
JSON serializer). -/
inductive GetResult where
  | ok (name : String) (rules : List Js)
  | okInherited (name : String)
  | notFound (error : String)

/-- HTTP status code attached to a `GetResult`. -/
def GetResult.httpStatus : GetResult → Nat
  | .ok _ _ => 200
  | .okInherited _ => 200
  | .notFound _ => 404

/-- Response of `DELETE /api/configs/:name`. -/
inductive DeleteResult where
  | ok
  | notFound (error : String)

/-- HTTP status code attached to a `DeleteResult`. -/
def DeleteResult.httpStatus : DeleteResult → Nat
  | .ok => 200
  | .notFound _ => 404

/-- Handler `GET /api/configs` (lines 38-41): list all saved config names. -/
def listConfigs (store : ConfigMap) : List String :=
  store.map (fun p => p.1)

/-- Handler `GET /api/configs/:name` (lines 44-51): the absence test is
`!configs[name]`, which is falsy only when the read is `undefined` — an
own key (always an array, truthy) answers 200 with its rules, but so does
an inherited `Object.prototype` member (truthy), with junk rules. -/
def getConfig (store : ConfigMap) (name : String) : GetResult :=
  match readProp store name with
  | .absent => .notFound "Config not found"
  | .own rs => .ok name rs
  | .inherited => .okInherited name

/-- Handler `POST /api/configs` (lines 54-68).  The first guard is
`!name || !name.trim()`; the second is `!rules || !Array.isArray(rules)`
(the `!rules` disjunct only rejects falsy values, none of which are arrays,
so the combined test is "not an array").  Returns the updated store and the
response. -/
def saveConfig (store : ConfigMap) (name : Option String) (rules : Option Js) :
    ConfigMap × SaveResult :=
  if optStrFalsy name || optStrFalsy (name.map jsTrim) then
    (store, .badRequest "Name is required")
  else if optJsFalsy rules || !(optJsIsArr rules) then
    (store, .badRequest "Rules array is required")
  else
    match name, rules with
    | some n, some (Js.arr xs) => (setProp store (jsTrim n) xs, .ok (jsTrim n))
    | _, _ => (store, .badRequest "Name is required")  -- unreachable: guarded above

/-- Handler `DELETE /api/configs/:name` (lines 71-80): the guard is again
`!configs[name]`, so an inherited `Object.prototype` member also passes it;
`delete configs[name]` then removes the own key if there is one and is a
silent no-op otherwise, and the handler answers 200 either way. -/
def deleteConfig (store : ConfigMap) (name : String) : ConfigMap × DeleteResult :=
  match readProp store name with
  | .absent => (store, .notFound "Config not found")
  | .own _ => (removeKey store name, .ok)
  | .inherited => (removeKey store name, .ok)

-- ── association-list lemmas ──

theorem lookupKey_setKey_self (m : List (String × α)) (k : String) (v : α) :
    lookupKey (setKey m k v) k = some v := by
  induction m with
  | nil => simp [setKey, lookupKey]
  | cons p rest ih =>
    obtain ⟨k1, v1⟩ := p
    by_cases h : k1 = k
    · simp [setKey, h, lookupKey]
    · simp [setKey, h, lookupKey, ih]

theorem lookupKey_setKey_ne (m : List (String × α)) (k kq : String) (v : α)
    (h : kq ≠ k) : lookupKey (setKey m k v) kq = lookupKey m kq := by
  induction m with
  | nil => simp [setKey, lookupKey, Ne.symm h]
  | cons p rest ih =>
    obtain ⟨k1, v1⟩ := p
    by_cases h1 : k1 = k
    · subst h1
      simp [setKey, lookupKey, Ne.symm h]
    · simp [setKey, h1, lookupKey, ih]

theorem lookupKey_removeKey_self (m : List (String × α)) (k : String) :
    lookupKey (removeKey m k) k = none := by
  induction m with
  | nil => simp [removeKey, lookupKey]
  | cons p rest ih =>
    obtain ⟨k1, v1⟩ := p
    by_cases h : k1 = k
    · simp [removeKey, h, ih]
    · simp [removeKey, h, lookupKey, ih]

theorem lookupKey_removeKey_ne (m : List (String × α)) (k kq : String)
    (h : kq ≠ k) : lookupKey (removeKey m k) kq = lookupKey m kq := by
  induction m with
  | nil => simp [removeKey]
  | cons p rest ih =>
    obtain ⟨k1, v1⟩ := p
    by_cases h1 : k1 = k
    · subst h1
      simp [removeKey, lookupKey, Ne.symm h, ih]
    · simp [removeKey, h1, lookupKey, ih]

/-- A save that passes validation assigns the rules to the trimmed name and
acknowledges it. -/
theorem saveConfig_valid (store : ConfigMap) (n : String) (xs : List Js)
    (h : jsTrim n ≠ "") :
    saveConfig store (some n) (some (Js.arr xs)) =
      (setProp store (jsTrim n) xs, SaveResult.ok (jsTrim n)) := by
  have h0 : n ≠ "" := by
    intro e
    exact h (by rw [e]; rfl)
  simp [saveConfig, optStrFalsy, optJsFalsy, optJsIsArr, Js.falsy, Js.isArr, h, h0]

/-- Away from the special name `__proto__`, assignment is plain own-key
update. -/
theorem setProp_of_ne_proto (m : ConfigMap) (k : String) (v : List Js)
    (h : k ≠ "__proto__") : setProp m k v = setKey m k v := by
  simp [setProp, h]

theorem lookupKey_setProp_ne (m : ConfigMap) (k kq : String) (v : List Js)
    (h : kq ≠ k) : lookupKey (setProp m k v) kq = lookupKey m kq := by
  unfold setProp
  split
  · rfl
  · exact lookupKey_setKey_ne m k kq v h

-- ── the in-memory event log and SSE fan-out (lines 29-33, 85-105, 142-161) ──

/-- One recorded webhook event (lines 86-94).  `headers` is the projected
object `{ content-type, user-agent }`; a field whose request header is
missing holds `none` (JavaScript `undefined`). -/
structure Event where
  id : Nat
  receivedAt : String
  headers : List (String × Option String)
  body : Js

/-- The header projection built by the receive handler (lines 89-92): only
`content-type` and `user-agent` are copied from the request headers. -/
def projectHeaders (hs : List (String × String)) : List (String × Option String) :=
  [("content-type", lookupKey hs "content-type"),
   ("user-agent", lookupKey hs "user-agent")]

/-- The event constructed by the receive handler when `webhooks.length = k`
(lines 86-94): `id` is `webhooks.length + 1`, `receivedAt` the current
clock reading. -/
def mkEvent (k : Nat) (hs : List (String × String)) (b : Js) (now : String) : Event :=
  { id := k + 1, receivedAt := now, headers := projectHeaders hs, body := b }

/-- The two pieces of in-memory mutable state (lines 30 and 33): the
append-only `webhooks` array and the `sseClients` array.  SSE clients are
identified by a number standing for the `res` object of their connection. -/
structure HubState where
  webhooks : List Event
  sseClients : List Nat

/-- State at process start: both arrays empty. -/
def initState : HubState := { webhooks := [], sseClients := [] }

/-- One inbound operation touching the in-memory state, in the
single-threaded execution order of the server:
`receive` is `POST /api/webhook/receive` (with the request headers, parsed
body, and the clock reading used for `receivedAt`), `subscribe` is a client
attaching via `GET /api/events`, and `close` is the transport close event
that removes a client. -/
inductive Op where
  | receive (hs : List (String × String)) (b : Js) (now : String)
  | subscribe (c : Nat)
  | close (c : Nat)

/-- Removal by `indexOf` + `splice(idx, 1)` (lines 158-159): delete the
first occurrence, no-op when absent. -/
def eraseFirst : List Nat → Nat → List Nat
  | [], _ => []
  | x :: xs, c => if x = c then xs else x :: eraseFirst xs c

/-- Result of one handler invocation: the new state, the `data:` writes it
performed (client, event), the id acknowledged to the HTTP caller (receive
only), and the event it published (receive only). -/
structure StepOut where
  state : HubState
  deliveries : List (Nat × Event)
  ack : Option Nat
  pub : Option Event

/-- One handler invocation.
`receive` (lines 85-105): build the event, push it onto `webhooks`, write it
to every current SSE client, respond with its id.
`subscribe` (lines 142-161): write the whole backlog to the new client,
then push the client onto `sseClients`.
`close` (lines 157-160): remove the client. -/
def step (s : HubState) : Op → StepOut
  | .receive hs b now =>
    let e := mkEvent s.webhooks.length hs b now
    { state := { s with webhooks := s.webhooks ++ [e] }
      deliveries := s.sseClients.map (fun c => (c, e))
      ack := some e.id
      pub := some e }
  | .subscribe c =>
    { state := { s with sseClients := s.sseClients ++ [c] }
      deliveries := s.webhooks.map (fun e => (c, e))
      ack := none
      pub := none }
  | .close c =>
    { state := { s with sseClients := eraseFirst s.sseClients c }
      deliveries := []
      ack := none
      pub := none }

/-- Accumulated observations of a whole trace. -/
structure RunOut where
  state : HubState
  deliveries : List (Nat × Event)
  acks : List Nat

/-- Run a trace of operations, concatenating the deliveries and the
acknowledged ids in execution order. -/
def run (s : HubState) : List Op → RunOut
  | [] => { state := s, deliveries := [], acks := [] }
  | op :: ops =>
    { state := (run (step s op).state ops).state
      deliveries := (step s op).deliveries ++ (run (step s op).state ops).deliveries
      acks := (step s op).ack.toList ++ (run (step s op).state ops).acks }

/-- The ids acknowledged over a trace (responses of the receive calls, in
order), starting from a log of length `k`. -/
def ackIdsFrom (k : Nat) : List Op → List Nat
  | [] => []
  | .receive _ _ _ :: ops => (k + 1) :: ackIdsFrom (k + 1) ops
  | .subscribe _ :: ops => ackIdsFrom k ops
  | .close _ :: ops => ackIdsFrom k ops

/-- The events appended over a trace, starting from a log of length `k`. -/
def logFrom (k : Nat) : List Op → List Event
  | [] => []
  | .receive hs b now :: ops => mkEvent k hs b now :: logFrom (k + 1) ops
  | .subscribe _ :: ops => logFrom k ops
  | .close _ :: ops => logFrom k ops

/-- Number of receive operations in a trace. -/
def numReceives : List Op → Nat
  | [] => 0
  | .receive _ _ _ :: ops => numReceives ops + 1
  | .subscribe _ :: ops => numReceives ops
  | .close _ :: ops => numReceives ops

/-- The clock readings of the receive operations of a trace, in order. -/
def receiveNows : List Op → List String
  | [] => []
  | .receive _ _ now :: ops => now :: receiveNows ops
  | .subscribe _ :: ops => receiveNows ops
  | .close _ :: ops => receiveNows ops

/-- Events delivered (written as `data:` frames) to client `c`, in order. -/
def deliveredTo (c : Nat) (ds : List (Nat × Event)) : List Event :=
  (ds.filter (fun p => p.1 == c)).map Prod.snd

/-- Does this operation subscribe client `c`? -/
def subscribesC (c : Nat) : Op → Bool
  | .subscribe cq => cq == c
  | _ => false

/-- Does this operation subscribe or close client `c`? -/
def mentionsC (c : Nat) : Op → Bool
  | .subscribe cq => cq == c
  | .close cq => cq == c
  | _ => false

-- ── basic trace lemmas ──

theorem run_webhooks (ops : List Op) (s : HubState) :
    (run s ops).state.webhooks = s.webhooks ++ logFrom s.webhooks.length ops := by
  induction ops generalizing s with
  | nil => simp [run, logFrom]
  | cons op ops ih =>
    cases op with
    | receive hs b now =>
      simp only [run, step, logFrom]
      rw [ih]
      simp [List.append_assoc]
    | subscribe c =>
      simp only [run, step, logFrom]
      exact ih _
    | close c =>
      simp only [run, step, logFrom]
      exact ih _

theorem run_acks (ops : List Op) (s : HubState) :
    (run s ops).acks = ackIdsFrom s.webhooks.length ops := by
  induction ops generalizing s with
  | nil => rfl
  | cons op ops ih =>
    cases op with
    | receive hs b now =>
      simp only [run, step, ackIdsFrom]
      rw [ih]
      simp [mkEvent]
    | subscribe c =>
      simp only [run, step, ackIdsFrom]
      rw [ih]
      simp
    | close c =>
      simp only [run, step, ackIdsFrom]
      rw [ih]
      simp

theorem ackIdsFrom_eq_range (ops : List Op) (k : Nat) :
    ackIdsFrom k ops = List.range' (k + 1) (numReceives ops) := by
  induction ops generalizing k with
  | nil => simp [ackIdsFrom, numReceives]
  | cons op ops ih =>
    cases op <;> simp [ackIdsFrom, numReceives, ih, List.range'_succ]

theorem logFrom_length (ops : List Op) (k : Nat) :
    (logFrom k ops).length = numReceives ops := by
  induction ops generalizing k with
  | nil => rfl
  | cons op ops ih => cases op <;> simp [logFrom, numReceives, ih]

theorem receiveNows_length (ops : List Op) :
    (receiveNows ops).length = numReceives ops := by
  induction ops with
  | nil => rfl
  | cons op ops ih => cases op <;> simp [receiveNows, numReceives, ih]

theorem logFrom_map_id (ops : List Op) (k : Nat) :
    (logFrom k ops).map (fun e => e.id) = List.range' (k + 1) (numReceives ops) := by
  induction ops generalizing k with
  | nil => rfl
  | cons op ops ih =>
    cases op <;> simp [logFrom, numReceives, mkEvent, ih, List.range'_succ]

theorem logFrom_get_id (ops : List Op) (k i : Nat) (h : i < (logFrom k ops).length) :
    ((logFrom k ops).get ⟨i, h⟩).id = k + 1 + i := by
  induction ops generalizing k i with
  | nil => simp [logFrom] at h
  | cons op ops ih =>
    cases op with
    | receive hs b now =>
      cases i with
      | zero => simp [logFrom, mkEvent]
      | succ i =>
        have h2 : i < (logFrom (k + 1) ops).length := by
          simpa [logFrom] using h
        have := ih (k + 1) i h2
        simp only [logFrom, List.get_cons_succ]
        omega
    | subscribe c =>
      have h2 : i < (logFrom k ops).length := by simpa [logFrom] using h
      simpa [logFrom] using ih k i h2
    | close c =>
      have h2 : i < (logFrom k ops).length := by simpa [logFrom] using h
      simpa [logFrom] using ih k i h2

theorem logFrom_get_receivedAt (ops : List Op) (k i : Nat)
    (h : i < (logFrom k ops).length) (h2 : i < (receiveNows ops).length) :
    ((logFrom k ops).get ⟨i, h⟩).receivedAt = (receiveNows ops).get ⟨i, h2⟩ := by
  induction ops generalizing k i with
  | nil => simp [logFrom] at h
  | cons op ops ih =>
    cases op with
    | receive hs b now =>
      cases i with
      | zero => simp [logFrom, receiveNows, mkEvent]
      | succ i =>
        have hA : i < (logFrom (k + 1) ops).length := by simpa [logFrom] using h
        have hB : i < (receiveNows ops).length := by simpa [receiveNows] using h2
        have := ih (k + 1) i hA hB
        simpa [logFrom, receiveNows] using this
    | subscribe c =>
      have hA : i < (logFrom k ops).length := by simpa [logFrom] using h
      have hB : i < (receiveNows ops).length := by simpa [receiveNows] using h2
      simpa [logFrom, receiveNows] using ih k i hA hB
    | close c =>
      have hA : i < (logFrom k ops).length := by simpa [logFrom] using h
      have hB : i < (receiveNows ops).length := by simpa [receiveNows] using h2
      simpa [logFrom, receiveNows] using ih k i hA hB

theorem run_append (s : HubState) (l1 l2 : List Op) :
    (run s (l1 ++ l2)).state = (run (run s l1).state l2).state ∧
    (run s (l1 ++ l2)).deliveries =
      (run s l1).deliveries ++ (run (run s l1).state l2).deliveries := by
  induction l1 generalizing s with
  | nil => simp [run]
  | cons op ops ih =>
    simp only [List.cons_append, run, List.append_eq]
    exact ⟨(ih _).1, by rw [(ih _).2, List.append_assoc]⟩

-- ── delivery bookkeeping ──

theorem deliveredTo_append (c : Nat) (d1 d2 : List (Nat × Event)) :
    deliveredTo c (d1 ++ d2) = deliveredTo c d1 ++ deliveredTo c d2 := by
  simp [deliveredTo, List.filter_append]

theorem deliveredTo_map_pair (l : List Nat) (e : Event) (c : Nat) :
    deliveredTo c (l.map (fun cl => (cl, e))) = List.replicate (l.count c) e := by
  induction l with
  | nil => rfl
  | cons x xs ih =>
    by_cases hx : x = c
    · subst hx
      simp_all [deliveredTo, List.count_cons, List.replicate_succ]
    · simp_all [deliveredTo, List.count_cons, hx, Ne.symm hx]

theorem deliveredTo_backlog_self (l : List Event) (c : Nat) :
    deliveredTo c (l.map (fun e => (c, e))) = l := by
  induction l with
  | nil => rfl
  | cons e es ih =>
    simp_all [deliveredTo]

theorem deliveredTo_backlog_ne (l : List Event) (cq c : Nat) (h : cq ≠ c) :
    deliveredTo c (l.map (fun e => (cq, e))) = [] := by
  induction l with
  | nil => rfl
  | cons e es ih =>
    simp_all [deliveredTo, h]

-- ── eraseFirst bookkeeping ──

theorem eraseFirst_count_le (l : List Nat) (cq c : Nat) :
    (eraseFirst l cq).count c ≤ l.count c := by
  induction l with
  | nil => simp [eraseFirst]
  | cons x xs ih =>
    by_cases hx : x = cq
    · simp [eraseFirst, hx, List.count_cons]
    · simp [eraseFirst, hx, List.count_cons]
      omega

theorem eraseFirst_count_ne (l : List Nat) (cq c : Nat) (h : cq ≠ c) :
    (eraseFirst l cq).count c = l.count c := by
  induction l with
  | nil => rfl
  | cons x xs ih =>
    by_cases hx : x = cq
    · subst hx
      simp [eraseFirst, List.count_cons, Ne.symm h]
    · simp [eraseFirst, hx, List.count_cons, ih]

theorem eraseFirst_count_self (l : List Nat) (c : Nat) :
    (eraseFirst l c).count c = l.count c - 1 := by
  induction l with
  | nil => rfl
  | cons x xs ih =>
    by_cases hx : x = c
    · subst hx
      simp [eraseFirst, List.count_cons]
    · simp [eraseFirst, hx, List.count_cons, Ne.symm hx, ih]

theorem eraseFirst_of_not_mem (l : List Nat) (c : Nat) (h : c ∉ l) :
    eraseFirst l c = l := by
  induction l with
  | nil => rfl
  | cons x xs ih =>
    simp only [List.mem_cons, not_or] at h
    simp [eraseFirst, Ne.symm h.1, ih h.2]

theorem all_not_subscribes_of_mentions (c : Nat) (ops : List Op)
    (h : ops.all (fun op => !mentionsC c op) = true) :
    ops.all (fun op => !subscribesC c op) = true := by
  induction ops with
  | nil => rfl
  | cons op ops ih =>
    rw [List.all_cons, Bool.and_eq_true] at h ⊢
    refine ⟨?_, ih h.2⟩
    have h1 := h.1
    cases op <;> simp_all [mentionsC, subscribesC]

-- ── the two delivery phases of a client ──

/-- While a client is not registered (and nothing in the trace subscribes
it), it receives nothing, and it stays unregistered. -/
theorem run_not_registered (c : Nat) (ops : List Op) (s : HubState)
    (hc : s.sseClients.count c = 0)
    (hops : ops.all (fun op => !subscribesC c op) = true) :
    deliveredTo c (run s ops).deliveries = [] ∧
    (run s ops).state.sseClients.count c = 0 := by
  induction ops generalizing s with
  | nil => exact ⟨rfl, hc⟩
  | cons op ops ih =>
    rw [List.all_cons, Bool.and_eq_true] at hops
    obtain ⟨hop, hops⟩ := hops
    cases op with
    | receive hs b now =>
      have hzero : deliveredTo c (step s (Op.receive hs b now)).deliveries = [] := by
        simp [step, deliveredTo_map_pair, hc]
      have hs' : (step s (Op.receive hs b now)).state.sseClients.count c = 0 := by
        simpa [step] using hc
      refine ⟨?_, (ih _ hs' hops).2⟩
      simp only [run, deliveredTo_append, hzero, (ih _ hs' hops).1, List.append_nil]
    | subscribe cq =>
      have hne : cq ≠ c := by simpa [subscribesC] using hop
      have hzero : deliveredTo c (step s (Op.subscribe cq)).deliveries = [] := by
        simp [step, deliveredTo_backlog_ne _ _ _ hne]
      have hs' : (step s (Op.subscribe cq)).state.sseClients.count c = 0 := by
        simp [step, List.count_append, List.count_cons, hc, Ne.symm hne]
      refine ⟨?_, (ih _ hs' hops).2⟩
      simp only [run, deliveredTo_append, hzero, (ih _ hs' hops).1, List.append_nil]
    | close cq =>
      have hs' : (step s (Op.close cq)).state.sseClients.count c = 0 := by
        have := eraseFirst_count_le s.sseClients cq c
        simp only [step]
        omega
      refine ⟨?_, (ih _ hs' hops).2⟩
      have hzero : deliveredTo c (step s (Op.close cq)).deliveries = [] := rfl
      simp only [run, deliveredTo_append, hzero, (ih _ hs' hops).1, List.append_nil]

/-- While a client is registered exactly once (and nothing in the trace
subscribes or closes it), it receives exactly the events appended by the
trace, in order. -/
theorem run_registered_once (c : Nat) (ops : List Op) (s : HubState)
    (hc : s.sseClients.count c = 1)
    (hops : ops.all (fun op => !mentionsC c op) = true) :
    deliveredTo c (run s ops).deliveries = logFrom s.webhooks.length ops := by
  induction ops generalizing s with
  | nil => rfl
  | cons op ops ih =>
    rw [List.all_cons, Bool.and_eq_true] at hops
    obtain ⟨hop, hops⟩ := hops
    cases op with
    | receive hs b now =>
      have hone : deliveredTo c (step s (Op.receive hs b now)).deliveries =
          [mkEvent s.webhooks.length hs b now] := by
        simp [step, deliveredTo_map_pair, hc]
      have hs' : (step s (Op.receive hs b now)).state.sseClients.count c = 1 := by
        simpa [step] using hc
      have hlen : (step s (Op.receive hs b now)).state.webhooks.length =
          s.webhooks.length + 1 := by
        simp [step]
      simp only [run, deliveredTo_append, hone, ih _ hs' hops, hlen, logFrom]
      rfl
    | subscribe cq =>
      have hne : cq ≠ c := by simpa [mentionsC] using hop
      have hzero : deliveredTo c (step s (Op.subscribe cq)).deliveries = [] := by
        simp [step, deliveredTo_backlog_ne _ _ _ hne]
      have hs' : (step s (Op.subscribe cq)).state.sseClients.count c = 1 := by
        simp [step, List.count_append, List.count_cons, hc, Ne.symm hne]
      simp only [run, deliveredTo_append, hzero, List.nil_append, logFrom]
      exact ih _ hs' hops
    | close cq =>
      have hne : cq ≠ c := by simpa [mentionsC] using hop
      have hs' : (step s (Op.close cq)).state.sseClients.count c = 1 := by
        simpa [step, eraseFirst_count_ne _ _ _ hne] using hc
      have hzero : deliveredTo c (step s (Op.close cq)).deliveries = [] := rfl
      simp only [run, deliveredTo_append, hzero, List.nil_append, logFrom]
      exact ih _ hs' hops

-- ── further config-store lemmas ──

/-- A save leaves the entry of any name other than the trimmed saved name
untouched (and an invalid save touches nothing). -/
theorem saveConfig_lookup_other (store : ConfigMap) (nameF : Option String)
    (rulesF : Option Js) (k : String)
    (hk : ∀ n, nameF = some n → k ≠ jsTrim n) :
    lookupKey (saveConfig store nameF rulesF).1 k = lookupKey store k := by
  unfold saveConfig
  split
  · rfl
  · split
    · rfl
    · cases nameF with
      | none => rfl
      | some n =>
        cases rulesF with
        | none => rfl
        | some r =>
          cases r with
          | arr xs => exact lookupKey_setProp_ne store (jsTrim n) k xs (hk n rfl)
          | null => rfl
          | bool b => rfl
          | num m => rfl
          | str s => rfl
          | obj fs => rfl

/-- A delete leaves the entry of any other name untouched. -/
theorem deleteConfig_lookup_other (store : ConfigMap) (name k : String)
    (hk : k ≠ name) :
    lookupKey (deleteConfig store name).1 k = lookupKey store k := by
  cases hl : readProp store name with
  | own rs => simp [deleteConfig, hl, lookupKey_removeKey_ne store name k hk]
  | inherited => simp [deleteConfig, hl, lookupKey_removeKey_ne store name k hk]
  | absent => simp [deleteConfig, hl]

/-- The whole server state: the persisted config document plus the two
in-memory arrays.  The config handlers read and write only the document. -/
structure ServerState where
  configs : ConfigMap
  webhooks : List Event
  sseClients : List Nat

/-- Handler `POST /api/configs` acting on the whole server state. -/
def saveConfigFull (s : ServerState) (nameF : Option String) (rulesF : Option Js) :
    ServerState × SaveResult :=
  ({ s with configs := (saveConfig s.configs nameF rulesF).1 },
   (saveConfig s.configs nameF rulesF).2)

/-- Handler `DELETE /api/configs/:name` acting on the whole server state. -/
def deleteConfigFull (s : ServerState) (name : String) :
    ServerState × DeleteResult :=
  ({ s with configs := (deleteConfig s.configs name).1 },
   (deleteConfig s.configs name).2)

-- ── claim theorems: config store ──

/-- C3 counterexample: the claim fails at the name `__proto__`.  The save
is acknowledged with the trimmed name, but `configs["__proto__"] = rules`
invokes the inherited prototype setter and persists nothing, so the
following `get("__proto__")` does not return the saved rules — it answers
200 with the inherited prototype object as rules. -/
theorem save_then_get_proto_counterexample :
    (saveConfig [] (some "__proto__") (some (Js.arr []))).2 =
      SaveResult.ok (jsTrim "__proto__") ∧
    getConfig (saveConfig [] (some "__proto__") (some (Js.arr []))).1
      (jsTrim "__proto__") ≠ GetResult.ok (jsTrim "__proto__") [] := by
  refine ⟨rfl, ?_⟩
  intro h
  exact GetResult.noConfusion h

/-- C3 (amended): for every name whose trim is non-empty and is not the
special name `__proto__`, and every rules list, `save(name, rules)`
returns the trimmed name, and a following `get(trim(name))` returns
exactly `rules`, whatever was stored under that name before (full
replace). -/
theorem save_then_get_roundtrip (store : ConfigMap) (name : String)
    (rules : List Js) (h : jsTrim name ≠ "") (hp : jsTrim name ≠ "__proto__") :
    (saveConfig store (some name) (some (Js.arr rules))).2 =
      SaveResult.ok (jsTrim name) ∧
    getConfig (saveConfig store (some name) (some (Js.arr rules))).1
      (jsTrim name) = GetResult.ok (jsTrim name) rules := by
  rw [saveConfig_valid store name rules h]
  refine ⟨rfl, ?_⟩
  show getConfig (setProp store (jsTrim name) rules) (jsTrim name) = _
  rw [setProp_of_ne_proto store (jsTrim name) rules hp]
  simp [getConfig, readProp, lookupKey_setKey_self]

/-- Witness for C3: `save("  foo  ", [])` then `get("foo")` returns `[]`,
and the second of two saves under `"x"` wins. -/
theorem save_then_get_roundtrip_witness :
    ((saveConfig [] (some "  foo  ") (some (Js.arr []))).2 =
       SaveResult.ok (jsTrim "  foo  ") ∧
     getConfig (saveConfig [] (some "  foo  ") (some (Js.arr []))).1
       (jsTrim "  foo  ") = GetResult.ok (jsTrim "  foo  ") []) ∧
    getConfig
        (saveConfig (saveConfig [] (some "x") (some (Js.arr [Js.num 1, Js.num 2]))).1
          (some "x") (some (Js.arr [Js.num 3]))).1
        (jsTrim "x") = GetResult.ok (jsTrim "x") [Js.num 3] :=
  ⟨save_then_get_roundtrip [] "  foo  " [] (by decide) (by decide),
   (save_then_get_roundtrip
      (saveConfig [] (some "x") (some (Js.arr [Js.num 1, Js.num 2]))).1
      "x" [Js.num 3] (by decide) (by decide)).2⟩

/-- C4: a save whose name is missing or trims to empty, or whose rules
field is missing or not an array, is rejected with HTTP 400 and leaves the
store unchanged; an empty rules array is accepted. -/
theorem save_invalid_input (store : ConfigMap) (nameF : Option String)
    (rulesF : Option Js) :
    ((nameF = none ∨ (∃ n, nameF = some n ∧ jsTrim n = "") ∨
      rulesF = none ∨ (∃ r, rulesF = some r ∧ ∀ xs, r ≠ Js.arr xs)) →
      (saveConfig store nameF rulesF).1 = store ∧
      ∃ msg, (saveConfig store nameF rulesF).2 = SaveResult.badRequest msg ∧
        ((saveConfig store nameF rulesF).2).httpStatus = 400) ∧
    (∀ n, jsTrim n ≠ "" →
      (saveConfig store (some n) (some (Js.arr []))).2 =
        SaveResult.ok (jsTrim n)) := by
  constructor
  · intro hbad
    rcases hbad with h | ⟨n, hn, hn0⟩ | h | ⟨r, hr, hr0⟩
    · subst h
      exact ⟨rfl, "Name is required", rfl, rfl⟩
    · subst hn
      simp [saveConfig, optStrFalsy, hn0, SaveResult.httpStatus]
    · subst h
      by_cases h1 : (optStrFalsy nameF || optStrFalsy (nameF.map jsTrim)) = true
      · simp [saveConfig, h1, SaveResult.httpStatus]
      · simp [saveConfig, h1, optJsFalsy, SaveResult.httpStatus]
    · subst hr
      have hra : optJsIsArr (some r) = false := by
        cases r
        case arr xs => exact absurd rfl (hr0 xs)
        all_goals rfl
      by_cases h1 : (optStrFalsy nameF || optStrFalsy (nameF.map jsTrim)) = true
      · simp [saveConfig, h1, SaveResult.httpStatus]
      · simp [saveConfig, h1, hra, SaveResult.httpStatus]
  · intro n hn
    rw [saveConfig_valid store n [] hn]

/-- Witness for C4: a whitespace-only name is rejected over a non-empty
store, and `save("x", [])` with an empty rules array succeeds. -/
theorem save_invalid_input_witness :
    ((saveConfig [("a", [Js.num 1])] (some "   ") (some (Js.arr []))).1 =
       [("a", [Js.num 1])] ∧
     ∃ msg, (saveConfig [("a", [Js.num 1])] (some "   ") (some (Js.arr []))).2 =
         SaveResult.badRequest msg ∧
       ((saveConfig [("a", [Js.num 1])] (some "   ") (some (Js.arr []))).2).httpStatus
         = 400) ∧
    (saveConfig [("a", [Js.num 1])] (some "x") (some (Js.arr []))).2 =
      SaveResult.ok (jsTrim "x") :=
  ⟨(save_invalid_input [("a", [Js.num 1])] (some "   ") (some (Js.arr []))).1
     (Or.inr (Or.inl ⟨"   ", rfl, by decide⟩)),
   (save_invalid_input [("a", [Js.num 1])] (some "x") (some (Js.arr []))).2
     "x" (by decide)⟩

/-- C5 (code bug, demonstrated at the failing input): with an empty store,
the name `toString` is absent, yet neither `get` nor `delete` answers 404:
the guard `!configs[name]` sees the inherited, truthy
`Object.prototype.toString`, so `get` answers 200 with the inherited junk
as rules and `delete` answers 200 while changing nothing — against the
claim, the spec, and the handlers' own `Config not found` path, which the
last two conjuncts show is taken at an ordinary absent name. -/
theorem get_delete_inherited_no_404 :
    getConfig [] "toString" = GetResult.okInherited "toString" ∧
    (getConfig [] "toString").httpStatus = 200 ∧
    deleteConfig [] "toString" = ([], DeleteResult.ok) ∧
    ((deleteConfig [] "toString").2).httpStatus = 200 ∧
    getConfig [] "missing" = GetResult.notFound "Config not found" ∧
    (getConfig [] "missing").httpStatus = 404 :=
  ⟨rfl, rfl, rfl, rfl, rfl, rfl⟩

/-- C10 (frame): a save changes no config entry other than the trimmed
saved name, a delete changes no entry other than the deleted name, and
neither touches the in-memory event log or the SSE client list. -/
theorem config_ops_frame (s : ServerState) (nameF : Option String)
    (rulesF : Option Js) (dname : String) :
    ((saveConfigFull s nameF rulesF).1.webhooks = s.webhooks ∧
     (saveConfigFull s nameF rulesF).1.sseClients = s.sseClients ∧
     ∀ k, (∀ n, nameF = some n → k ≠ jsTrim n) →
       lookupKey (saveConfigFull s nameF rulesF).1.configs k =
         lookupKey s.configs k) ∧
    ((deleteConfigFull s dname).1.webhooks = s.webhooks ∧
     (deleteConfigFull s dname).1.sseClients = s.sseClients ∧
     ∀ k, k ≠ dname →
       lookupKey (deleteConfigFull s dname).1.configs k =
         lookupKey s.configs k) := by
  refine ⟨⟨rfl, rfl, ?_⟩, rfl, rfl, ?_⟩
  · intro k hk
    exact saveConfig_lookup_other s.configs nameF rulesF k hk
  · intro k hk
    exact deleteConfig_lookup_other s.configs dname k hk

/-- Witness for C10: saving `"b"` and deleting `"a"` each leave the other
entry, the event log and the client list as they were. -/
theorem config_ops_frame_witness :
    lookupKey (saveConfigFull ⟨[("a", [Js.num 1])], [], [7]⟩ (some "b")
        (some (Js.arr []))).1.configs "a" =
      lookupKey [("a", [Js.num 1])] "a" ∧
    (saveConfigFull ⟨[("a", [Js.num 1])], [], [7]⟩ (some "b")
        (some (Js.arr []))).1.sseClients = [7] ∧
    lookupKey (deleteConfigFull ⟨[("a", [Js.num 1])], [], [7]⟩ "a").1.configs "b" =
      lookupKey [("a", [Js.num 1])] "b" :=
  ⟨(config_ops_frame ⟨[("a", [Js.num 1])], [], [7]⟩ (some "b") (some (Js.arr []))
      "a").1.2.2 "a" (fun n hn => by cases hn; decide),
   (config_ops_frame ⟨[("a", [Js.num 1])], [], [7]⟩ (some "b") (some (Js.arr []))
      "a").1.2.1,
   (config_ops_frame ⟨[("a", [Js.num 1])], [], [7]⟩ (some "b") (some (Js.arr []))
      "a").2.2.2 "b" (by decide)⟩

-- ── claim theorems: event log and broadcast ──

/-- C1: over every single-threaded trace, the ids acknowledged by the
receive endpoint are exactly `1, 2, ..., N` in arrival order (`N` = number
of receive calls) with no gaps and no repeats, and the appended events
carry exactly those ids — each new id is the previous log length, i.e. the
previous maximum, plus one, starting at 1 on the empty log. -/
theorem receive_ack_ids (ops : List Op) :
    (run initState ops).acks = List.range' 1 (numReceives ops) ∧
    (run initState ops).state.webhooks.map (fun e => e.id) =
      List.range' 1 (numReceives ops) := by
  constructor
  · rw [run_acks]
    simpa [initState] using ackIdsFrom_eq_range ops 0
  · rw [run_webhooks]
    simpa [initState] using logFrom_map_id ops 0

/-- C2: a client that attaches via `GET /api/events` after the trace `pre`
(which never subscribes or closes it) is sent exactly the backlog present
at attachment, in id order, followed by exactly the events published by the
later trace `post` (which never subscribes or closes it), in publish
order — no duplication, no loss; the backlog size equals the number of
prior receive calls. -/
theorem subscribe_backlog_then_live (pre post : List Op) (c : Nat)
    (hpre : pre.all (fun op => !mentionsC c op) = true)
    (hpost : post.all (fun op => !mentionsC c op) = true) :
    deliveredTo c (run initState (pre ++ Op.subscribe c :: post)).deliveries =
      (run initState pre).state.webhooks ++
        logFrom (run initState pre).state.webhooks.length post ∧
    (run initState pre).state.webhooks.length = numReceives pre := by
  have h0 : initState.sseClients.count c = 0 := rfl
  have hpre0 := run_not_registered c pre initState h0
    (all_not_subscribes_of_mentions c pre hpre)
  have happ := run_append initState pre (Op.subscribe c :: post)
  have hc1 : ((step (run initState pre).state (Op.subscribe c)).state.sseClients.count c) = 1 := by
    simp [step, List.count_append, hpre0.2]
  have hlive := run_registered_once c post
    (step (run initState pre).state (Op.subscribe c)).state hc1 hpost
  constructor
  · rw [happ.2, deliveredTo_append, hpre0.1, List.nil_append]
    have hrest : (run (run initState pre).state (Op.subscribe c :: post)).deliveries =
        (step (run initState pre).state (Op.subscribe c)).deliveries ++
          (run (step (run initState pre).state (Op.subscribe c)).state post).deliveries := rfl
    rw [hrest, deliveredTo_append, hlive]
    have hbacklog : (step (run initState pre).state (Op.subscribe c)).deliveries =
        (run initState pre).state.webhooks.map (fun e => (c, e)) := rfl
    rw [hbacklog, deliveredTo_backlog_self]
    have hkeep : (step (run initState pre).state (Op.subscribe c)).state.webhooks =
        (run initState pre).state.webhooks := rfl
    rw [hkeep]
  · rw [run_webhooks]
    simp [initState, logFrom_length]

/-- Witness for C2: client 0 subscribes after one receive and sees that
event as backlog, then the next received event live, in that order. -/
theorem subscribe_backlog_then_live_witness :
    deliveredTo 0 (run initState
        ([Op.receive [] Js.null "a"] ++ Op.subscribe 0 :: [Op.receive [] Js.null "b"])).deliveries =
      (run initState [Op.receive [] Js.null "a"]).state.webhooks ++
        logFrom (run initState [Op.receive [] Js.null "a"]).state.webhooks.length
          [Op.receive [] Js.null "b"] ∧
    (run initState [Op.receive [] Js.null "a"]).state.webhooks.length =
      numReceives [Op.receive [] Js.null "a"] :=
  subscribe_backlog_then_live [Op.receive [] Js.null "a"]
    [Op.receive [] Js.null "b"] 0 (by decide) (by decide)

/-- C6: the recorded event's headers hold exactly the request's
content-type and user-agent values and no other header, and the body is
recorded verbatim, unvalidated. -/
theorem receive_header_projection (s : HubState) (hs : List (String × String))
    (b : Js) (now : String) :
    ∃ e : Event, (step s (Op.receive hs b now)).pub = some e ∧
      lookupKey e.headers "content-type" = some (lookupKey hs "content-type") ∧
      lookupKey e.headers "user-agent" = some (lookupKey hs "user-agent") ∧
      (∀ k, k ≠ "content-type" → k ≠ "user-agent" →
        lookupKey e.headers k = none) ∧
      e.body = b := by
  refine ⟨mkEvent s.webhooks.length hs b now, rfl, rfl, rfl, ?_, rfl⟩
  intro k hk1 hk2
  simp [mkEvent, projectHeaders, lookupKey, Ne.symm hk1, Ne.symm hk2]

/-- Witness for C6: a request carrying an extra `x-secret` header has only
content-type and user-agent retained. -/
theorem receive_header_projection_witness :
    ∃ e : Event,
      (step initState (Op.receive
        [("content-type", "application/json"), ("x-secret", "s")]
        (Js.num 1) "t")).pub = some e ∧
      lookupKey e.headers "content-type" =
        some (lookupKey [("content-type", "application/json"), ("x-secret", "s")]
          "content-type") ∧
      lookupKey e.headers "user-agent" =
        some (lookupKey [("content-type", "application/json"), ("x-secret", "s")]
          "user-agent") ∧
      (∀ k, k ≠ "content-type" → k ≠ "user-agent" →
        lookupKey e.headers k = none) ∧
      e.body = Js.num 1 :=
  receive_header_projection initState
    [("content-type", "application/json"), ("x-secret", "s")] (Js.num 1) "t"

/-- C7: once a close has removed a client, no later publish delivers to it
(as long as nothing re-subscribes it), and closing a client that is not in
the list is a no-op on the state, not an error. -/
theorem unsubscribe_no_delivery_idempotent (s : HubState) (c : Nat)
    (post : List Op)
    (hcount : s.sseClients.count c ≤ 1)
    (hpost : post.all (fun op => !subscribesC c op) = true) :
    deliveredTo c (run (step s (Op.close c)).state post).deliveries = [] ∧
    (c ∉ s.sseClients → (step s (Op.close c)).state = s) := by
  constructor
  · have h0 : (step s (Op.close c)).state.sseClients.count c = 0 := by
      have := eraseFirst_count_self s.sseClients c
      simp only [step]
      omega
    exact (run_not_registered c post _ h0 hpost).1
  · intro hnm
    simp [step, eraseFirst_of_not_mem _ _ hnm]

/-- Witness for C7: closing client 5 suppresses delivery of a later
receive, and a second close of 5 leaves the state exactly as after the
first. -/
theorem unsubscribe_no_delivery_idempotent_witness :
    deliveredTo 5 (run (step ⟨[], [5]⟩ (Op.close 5)).state
      [Op.receive [] Js.null "t"]).deliveries = [] ∧
    (step (step ⟨[], [5]⟩ (Op.close 5)).state (Op.close 5)).state =
      (step ⟨[], [5]⟩ (Op.close 5)).state :=
  ⟨(unsubscribe_no_delivery_idempotent ⟨[], [5]⟩ 5 [Op.receive [] Js.null "t"]
      (by decide) (by decide)).1,
   (unsubscribe_no_delivery_idempotent (step ⟨[], [5]⟩ (Op.close 5)).state 5 []
      (by decide) rfl).2 (by decide)⟩

/-- C9: provided the clock readings fed to the receive handler are
non-decreasing over the trace (the environment assumption for
`new Date().toISOString()`), any two logged events with `e1.id < e2.id`
satisfy `e1.receivedAt ≤ e2.receivedAt`. -/
theorem receivedAt_monotone_in_id (ops : List Op)
    (hmono : List.Sorted (fun a b : String => a ≤ b) (receiveNows ops))
    (e1 e2 : Event)
    (h1 : e1 ∈ (run initState ops).state.webhooks)
    (h2 : e2 ∈ (run initState ops).state.webhooks)
    (hid : e1.id < e2.id) :
    e1.receivedAt ≤ e2.receivedAt := by
  rw [run_webhooks] at h1 h2
  simp only [initState, List.nil_append, List.length_nil] at h1 h2
  obtain ⟨i, hi⟩ := List.mem_iff_get.mp h1
  obtain ⟨j, hj⟩ := List.mem_iff_get.mp h2
  have hidi : e1.id = 0 + 1 + i.val := by
    rw [← hi]; exact logFrom_get_id ops 0 i.val i.isLt
  have hidj : e2.id = 0 + 1 + j.val := by
    rw [← hj]; exact logFrom_get_id ops 0 j.val j.isLt
  have hij : i.val < j.val := by omega
  have hlen : (logFrom 0 ops).length = numReceives ops := logFrom_length ops 0
  have hbi : i.val < (receiveNows ops).length := by
    rw [receiveNows_length]
    have hvi := i.isLt
    omega
  have hbj : j.val < (receiveNows ops).length := by
    rw [receiveNows_length]
    have hvj := j.isLt
    omega
  have hra1 : e1.receivedAt = (receiveNows ops).get ⟨i.val, hbi⟩ := by
    rw [← hi]; exact logFrom_get_receivedAt ops 0 i.val i.isLt hbi
  have hra2 : e2.receivedAt = (receiveNows ops).get ⟨j.val, hbj⟩ := by
    rw [← hj]; exact logFrom_get_receivedAt ops 0 j.val j.isLt hbj
  rw [hra1, hra2]
  exact hmono.rel_get_of_lt (Fin.mk_lt_mk.mpr hij)

/-- Witness for C9: two receives with increasing clock readings yield
events whose receivedAt values are in order. -/
theorem receivedAt_monotone_in_id_witness :
    (mkEvent 0 [] Js.null "a").receivedAt ≤ (mkEvent 1 [] Js.null "b").receivedAt :=
  receivedAt_monotone_in_id [Op.receive [] Js.null "a", Op.receive [] Js.null "b"]
    (by
      simp only [receiveNows, List.sorted_cons, List.sorted_nil, List.mem_singleton,
        List.not_mem_nil, false_implies, implies_true, and_true]
      intro b hb
      subst hb
      exact String.le_iff_toList_le.mpr (by decide))
    (mkEvent 0 [] Js.null "a") (mkEvent 1 [] Js.null "b")
    (List.mem_cons_self _ _)
    (List.mem_cons_of_mem _ (List.mem_cons_self _ _))
    (by decide)

-- ── the relay endpoint (lines 108-139) ──

/-- What the upstream server answered, as seen through `fetch`:
`status`, `statusText`, and the response text (`await response.text()`). -/
structure RemoteResponse where
  status : Nat
  statusText : String
  text : String

/-- Outcome of the `await fetch(...)`/`await response.text()` section:
either it completes with a remote response, or it throws with an error
message (network/protocol failure). -/
inductive FetchOutcome where
  | success (r : RemoteResponse)
  | failure (message : String)

/-- Response of `POST /api/webhook/send`. -/
inductive SendResult where
  | ok (status : Nat) (statusText : String) (body : Js)
  | badRequest (error : String)
  | upstreamError (error : String)

/-- HTTP status code attached to a `SendResult` (200 / 400 / 502). -/
def SendResult.httpStatus : SendResult → Nat
  | .ok _ _ _ => 200
  | .badRequest _ => 400
  | .upstreamError _ => 502

/-- Models `payload ?? x` with x the empty object (line 119): nullish coalescing — `undefined` (absent
field) and `null` both fall back to the empty object. -/
def jsNullish : Option Js → Js
  | none => Js.obj []
  | some Js.null => Js.obj []
  | some j => j

/-- Handler `POST /api/webhook/send` (lines 108-139).  `doFetch` stands for the
outbound `fetch` of the JSON-encoded payload to the url together with
reading the response text; `parseJson` stands for `JSON.parse`, which
either yields a value or throws (`none`).  `!url` rejects a missing or
empty url before any fetch happens; a thrown fetch is answered with 502
and the error message; otherwise the response body is the parsed text when
parsing succeeds and the raw text when it does not. -/
def sendWebhook (url : Option String) (payload : Option Js)
    (doFetch : String → Js → FetchOutcome)
    (parseJson : String → Option Js) : SendResult :=
  if optStrFalsy url then .badRequest "Missing target URL"
  else
    match url with
    | none => .badRequest "Missing target URL"  -- unreachable: none is falsy
    | some u =>
      match doFetch u (jsNullish payload) with
      | .failure msg => .upstreamError msg
      | .success r =>
        match parseJson r.text with
        | some j => .ok r.status r.statusText j
        | none => .ok r.status r.statusText (Js.str r.text)

-- ── claim theorem: relay ──

/-- C8: a missing or empty url is rejected with 400 before any upstream
contact (the result does not depend on the fetch function at all); a
transport-level failure is answered with 502 carrying the underlying error
message; a completed call is answered with `ok`, the remote status and
status text, and the body JSON-decoded when possible, raw text
otherwise. -/
theorem send_webhook_spec (payload : Option Js)
    (parseJson : String → Option Js)
    (f g : String → Js → FetchOutcome) (urlF : Option String)
    (u msg : String) (r : RemoteResponse) :
    (optStrFalsy urlF = true →
      sendWebhook urlF payload f parseJson = SendResult.badRequest "Missing target URL" ∧
      (sendWebhook urlF payload f parseJson).httpStatus = 400 ∧
      sendWebhook urlF payload f parseJson = sendWebhook urlF payload g parseJson) ∧
    (f u (jsNullish payload) = FetchOutcome.failure msg → u ≠ "" →
      sendWebhook (some u) payload f parseJson = SendResult.upstreamError msg ∧
      (sendWebhook (some u) payload f parseJson).httpStatus = 502) ∧
    (f u (jsNullish payload) = FetchOutcome.success r → u ≠ "" →
      ∃ b, sendWebhook (some u) payload f parseJson =
          SendResult.ok r.status r.statusText b ∧
        (sendWebhook (some u) payload f parseJson).httpStatus = 200 ∧
        ((∃ j, parseJson r.text = some j ∧ b = j) ∨
         (parseJson r.text = none ∧ b = Js.str r.text))) := by
  refine ⟨?_, ?_, ?_⟩
  · intro h
    simp [sendWebhook, h, SendResult.httpStatus]
  · intro hf hu
    have hfal : optStrFalsy (some u) = false := by simpa [optStrFalsy] using hu
    simp [sendWebhook, hfal, hf, SendResult.httpStatus]
  · intro hf hu
    have hfal : optStrFalsy (some u) = false := by simpa [optStrFalsy] using hu
    rcases hp : parseJson r.text with _ | j
    · exact ⟨Js.str r.text, by simp [sendWebhook, hfal, hf, hp],
        by simp [sendWebhook, hfal, hf, hp, SendResult.httpStatus],
        Or.inr ⟨rfl, rfl⟩⟩
    · exact ⟨j, by simp [sendWebhook, hfal, hf, hp],
        by simp [sendWebhook, hfal, hf, hp, SendResult.httpStatus],
        Or.inl ⟨j, rfl, rfl⟩⟩

/-- Witness for C8: a missing url is rejected with 400 independently of the
fetch function, and a fetch that throws on `http://bad.invalid` is answered
with 502 and the error message. -/
theorem send_webhook_spec_witness :
    (sendWebhook none (some Js.null)
        (fun _ _ => FetchOutcome.failure "fetch failed") (fun _ => none) =
      SendResult.badRequest "Missing target URL") ∧
    (sendWebhook (some "http://bad.invalid") (some Js.null)
        (fun _ _ => FetchOutcome.failure "fetch failed") (fun _ => none) =
      SendResult.upstreamError "fetch failed" ∧
     (sendWebhook (some "http://bad.invalid") (some Js.null)
        (fun _ _ => FetchOutcome.failure "fetch failed") (fun _ => none)).httpStatus
        = 502) :=
  ⟨((send_webhook_spec (some Js.null) (fun _ => none)
      (fun _ _ => FetchOutcome.failure "fetch failed")
      (fun _ _ => FetchOutcome.failure "fetch failed") none
      "http://bad.invalid" "fetch failed" ⟨200, "OK", ""⟩).1 (by decide)).1,
   (send_webhook_spec (some Js.null) (fun _ => none)
      (fun _ _ => FetchOutcome.failure "fetch failed")
      (fun _ _ => FetchOutcome.failure "fetch failed") none
      "http://bad.invalid" "fetch failed" ⟨200, "OK", ""⟩).2.1 rfl (by decide)⟩

end WebhookApp
